import Mathlib

/-!
Shallow embedding of the gcommit repository.

Source files embedded here:
- `git_helper.py` (class `GitHelper`; `gcommit.py` contains an identical inline copy),
- `ollama_client.py` (class `OllamaClient`, prompts with optional user hint),
- `gcommit_app.py` (class `GCommit.run`, rich-terminal orchestrator),
- `gcommit.py` (self-contained orchestrator with its own prompts and a plain
  `input()` confirmation loop) — embedded as the `Plain` variants below.

External effects (subprocess results, HTTP responses, user input) are supplied
by environment records; every externally visible action of a run (HTTP request,
summarization call, aggregate-generation call, `git commit` invocation) is
recorded in an explicit event trace so that absence-of-call properties are
statable.  Python `str.strip` / `str.lower` are modelled explicitly on the
character list of the string.
-/

namespace Gcommit

/-- Characters removed by Python `str.strip()` (ASCII whitespace; `\x0b` and
`\x0c` included as in CPython). -/
def pyIsSpace (c : Char) : Bool :=
  c = ' ' || c = '\t' || c = '\n' || c = '\r' || c = '\x0b' || c = '\x0c'

/-- Python `str.strip()` on the character list: remove leading whitespace, then
trailing whitespace. -/
def pyStripList (l : List Char) : List Char :=
  List.rdropWhile pyIsSpace (l.dropWhile pyIsSpace)

/-- Python `str.strip()`. -/
def pyStrip (s : String) : String :=
  String.mk (pyStripList s.data)

/-- Python `str.lower()` (ASCII view, which is all the code compares). -/
def pyLower (s : String) : String :=
  String.mk (s.data.map Char.toLower)

/-- Externally visible actions of a run, in order of occurrence.  `tagsReq` and
`genReq` are the two HTTP requests the client can issue (`GET /api/tags`,
`POST /api/generate` with the given prompt); `summarizeCall` / `generateCall`
record invocations of `summarize_file_changes` / `generate_commit_message`;
`commitCall` records an invocation of `git commit -m message`. -/
inductive Event where
  | tagsReq : Event
  | genReq (prompt : String) : Event
  | summarizeCall (filepath diff : String) : Event
  | generateCall (file_summaries : List (String × String)) : Event
  | commitCall (message : String) : Event
deriving DecidableEq

/-- Outcomes of the `git` subprocess invocations made by `GitHelper`
(`git_helper.py`; `gcommit.py` has an identical copy).  `none` models a
`subprocess.CalledProcessError`; `some out` models exit status 0 with stdout
`out`. -/
structure GitEnv where
  /-- Exit status of `git rev-parse --git-dir` (`True` = success). -/
  revParseOk : Bool
  /-- `git ls-files --others --exclude-standard`. -/
  lsFilesOut : Option String
  /-- `git diff --staged --name-only`. -/
  diffNamesOut : Option String
  /-- `git diff --staged -- filepath`, per file path. -/
  fileDiffOut : String → Option String
  /-- Exit status of `git commit -m message`, per message. -/
  commitOk : String → Bool

/-- Responses of the Ollama HTTP API.  `tagsStatus` is the status code of
`GET /api/tags` (`none` = `requests.RequestException`).  `genResp`, keyed by
the posted prompt, gives the status code and the `response` field of the JSON
body for `POST /api/generate` (`none` = `requests.RequestException`). -/
structure OllamaEnv where
  tagsStatus : Option Nat
  genResp : String → Option (Nat × String)

/-- The three confirmation responses accepted by `gcommit_app.py`
(`Prompt.ask(choices=["accept", "reject", "edit"])`). -/
inductive Choice where
  | accept : Choice
  | reject : Choice
  | edit : Choice
deriving DecidableEq

/-! ## GitHelper (`git_helper.py`, identical copy in `gcommit.py`) -/

/-- Python `str.split('\n')` on the character list: `""` yields `[""]`, and a
trailing newline yields a trailing empty field, exactly as in CPython. -/
def splitNlList : List Char → List (List Char)
  | [] => [[]]
  | c :: rest =>
    if c = '\n' then [] :: splitNlList rest
    else
      match splitNlList rest with
      | [] => [[c]]
      | line :: more => (c :: line) :: more

/-- Python `out.split('\n')`. -/
def pySplitNl (s : String) : List String :=
  (splitNlList s.data).map String.mk

/-- The list comprehension `[f.strip() for f in out.split('\n') if f.strip()]`
used by both `has_untracked_files` and `get_staged_files`. -/
def stripLines (out : String) : List String :=
  ((pySplitNl out).map pyStrip).filter (fun s => s ≠ "")

/-- `GitHelper.has_untracked_files`. -/
def has_untracked_files (g : GitEnv) : Bool × List String :=
  match g.lsFilesOut with
  | none => (false, [])
  | some out =>
    let files := stripLines out
    (files.length > 0, files)

/-- `GitHelper.get_staged_files`. -/
def get_staged_files (g : GitEnv) : List String :=
  match g.diffNamesOut with
  | none => []
  | some out => stripLines out

/-- `GitHelper.get_file_diff`: the raw stdout when its stripped form is
non-empty, `None` otherwise (empty diff output or command failure). -/
def get_file_diff (g : GitEnv) (filepath : String) : Option String :=
  match g.fileDiffOut filepath with
  | none => none
  | some out => if pyStrip out ≠ "" then some out else none

/-- `GitHelper.commit_changes`: runs `git commit -m message` and reports
success. -/
def commit_changes (g : GitEnv) (message : String) : Bool :=
  g.commitOk message

/-! ## OllamaClient (`ollama_client.py`; `gcommit.py` carries the same client
with slightly different prompts, embedded as the `Plain` variants) -/

/-- `OllamaClient.is_available`: `GET /api/tags`, available iff status 200. -/
def is_available (o : OllamaEnv) : Bool × List Event :=
  (match o.tagsStatus with
   | none => false
   | some code => code == 200,
   [Event.tagsReq])

/-- The shared tail of both generation methods: `POST /api/generate` with
`{model, prompt, stream: false}`; on status 200 return the stripped `response`
field when non-empty, otherwise `None`; non-200 status or a request exception
also yield `None`. -/
def postGenerate (o : OllamaEnv) (prompt : String) : Option String × List Event :=
  (match o.genResp prompt with
   | none => none
   | some (status, body) =>
     if status = 200 then
       if pyStrip body = "" then none else some (pyStrip body)
     else none,
   [Event.genReq prompt])

/-- The summarization prompt of `OllamaClient.summarize_file_changes`
(`ollama_client.py`), with the optional hint block. -/
def summarizePrompt (filepath diff hint : String) : String :=
  "Analyze the following git diff and summarize the changes for this file in one concise sentence.\n\nFile: "
    ++ filepath ++ "\nGit Diff:\n" ++ diff ++ "\n"
    ++ (if hint ≠ "" then "User Initial Commit Message:\n" ++ hint else "")
    ++ "\n\nProvide only the summary sentence, no additional text."

/-- `OllamaClient.summarize_file_changes` (`ollama_client.py`): short-circuits
to `None` with no request when the diff is blank. -/
def summarize_file_changes (o : OllamaEnv) (filepath diff hint : String) :
    Option String × List Event :=
  if pyStrip diff = "" then (none, [])
  else postGenerate o (summarizePrompt filepath diff hint)

/-- The summarization prompt of the `OllamaClient` copy in `gcommit.py`
(no hint parameter). -/
def summarizePromptPlain (filepath diff : String) : String :=
  "Summarize the changes in this file in one concise sentence.\n\nFile: "
    ++ filepath ++ "\nChanges:\n" ++ diff
    ++ "\n\nProvide only the summary sentence, no additional text."

/-- `OllamaClient.summarize_file_changes` as written in `gcommit.py`. -/
def summarize_file_changes_plain (o : OllamaEnv) (filepath diff : String) :
    Option String × List Event :=
  if pyStrip diff = "" then (none, [])
  else postGenerate o (summarizePromptPlain filepath diff)

/-- `summaries_text = "\n".join([f"- {fp}: {summary}" ...])`, identical in
both clients. -/
def summariesText (file_summaries : List (String × String)) : String :=
  String.intercalate "\n" (file_summaries.map (fun fs => "- " ++ fs.1 ++ ": " ++ fs.2))

/-- The fixed instruction block of the `ollama_client.py` generation prompt,
up to and including the line introducing the file-changes list. -/
def genPromptHeader : String :=
  "You are an expert at writing git commit messages following the Conventional Commits specification.\n"
    ++ "Your task is to analyze the provided file changes and generate a well-formed commit message.\n"
    ++ "\n### Rules\n"
    ++ "1.  **Format:** The commit message must follow this structure: `<type>: <subject>\n\n<body>`.\n"
    ++ "2.  **Type Selection:** First, you MUST determine the single most appropriate commit `type` by analyzing the user's intent from the file changes. Choose from this list only:\n"
    ++ "    *   **feat**: A new feature is introduced.\n"
    ++ "    *   **fix**: A bug in the code is fixed.\n"
    ++ "    *   **docs**: Changes are made only to documentation (e.g., README, comments).\n"
    ++ "    *   **style**: Code style changes that don't affect logic (e.g., formatting, whitespace).\n"
    ++ "    *   **refactor**: A code change that neither fixes a bug nor adds a feature.\n"
    ++ "    *   **test**: Adding new tests or correcting existing ones.\n"
    ++ "    *   **chore**: Changes to the build process, tooling, or repository maintenance.\n"
    ++ "3.  **Subject Line:** The `<subject>` must be a concise summary of the change, written in the imperative mood (e.g., \"add,\" not \"added\" or \"adds\"). Start with a lowercase letter and do not end with a period.\n"
    ++ "4.  **Body:** The `<body>` should explain the \"what\" and \"why\" of the change in detail.\n"
    ++ "5.  **Output:** CRITICAL: Your response must contain ONLY the raw commit message and nothing else. Do not include any explanations or introductory text.\n"
    ++ "\n### File Changes to Analyze\n"

/-- The full generation prompt of `OllamaClient.generate_commit_message`
(`ollama_client.py`): header, bulleted summaries, optional hint block. -/
def generatePrompt (file_summaries : List (String × String)) (hint : String) : String :=
  genPromptHeader ++ summariesText file_summaries ++ "\n"
    ++ (if hint ≠ "" then "\nUser Initial Commit Message:\n" ++ hint else "")
    ++ "\n"

/-- `OllamaClient.generate_commit_message` (`ollama_client.py`): `None` with no
request for an empty summary list, otherwise one `POST /api/generate`. -/
def generate_commit_message (o : OllamaEnv) (file_summaries : List (String × String))
    (hint : String) : Option String × List Event :=
  if file_summaries = [] then (none, [])
  else postGenerate o (generatePrompt file_summaries hint)

/-- The fixed text of the `gcommit.py` generation prompt before the summaries. -/
def genPromptHeaderPlain : String :=
  "Generate a git commit message for the following file changes following Conventional Commits format.\n"
    ++ "\nThe message should be concise but descriptive, following this format:\n"
    ++ "<type>: <description>\n\n<body explaining the overall changes>\n"
    ++ "\nTypes: feat, fix, docs, style, refactor, test, chore\n"
    ++ "\nFile changes:\n"

/-- The full generation prompt of the `gcommit.py` client. -/
def generatePromptPlain (file_summaries : List (String × String)) : String :=
  genPromptHeaderPlain ++ summariesText file_summaries
    ++ "\n\nProvide only the commit message, no additional text."

/-- `OllamaClient.generate_commit_message` as written in `gcommit.py`. -/
def generate_commit_message_plain (o : OllamaEnv)
    (file_summaries : List (String × String)) : Option String × List Event :=
  if file_summaries = [] then (none, [])
  else postGenerate o (generatePromptPlain file_summaries)

/-! ## Orchestrator (`GCommit.run`): per-file summarization loop

The loop body of both `gcommit.py` (lines 224-230) and `gcommit_app.py`
(lines 100-106): fetch the staged diff; if truthy, call the summarizer; if the
summary is truthy, append `(filepath, summary)`.  The two orchestrators differ
only in the summarizer they call, so the loop is parameterized by it. -/

/-- One iteration of the per-file loop: the `(path, summary)` pairs it appends
(zero or one) and the events of that iteration. -/
def summarizeStep (summ : String → String → Option String × List Event)
    (g : GitEnv) (filepath : String) : List (String × String) × List Event :=
  match get_file_diff g filepath with
  | none => ([], [])
  | some diff =>
    if diff = "" then ([], [])
    else
      match (summ filepath diff).1 with
      | none => ([], Event.summarizeCall filepath diff :: (summ filepath diff).2)
      | some summary =>
        if summary = "" then ([], Event.summarizeCall filepath diff :: (summ filepath diff).2)
        else ([(filepath, summary)], Event.summarizeCall filepath diff :: (summ filepath diff).2)

/-- The whole per-file loop, in staged-file enumeration order. -/
def processFiles (summ : String → String → Option String × List Event)
    (g : GitEnv) : List String → List (String × String) × List Event
  | [] => ([], [])
  | filepath :: rest =>
    ((summarizeStep summ g filepath).1 ++ (processFiles summ g rest).1,
     (summarizeStep summ g filepath).2 ++ (processFiles summ g rest).2)

/-- The loop of `gcommit_app.py`, which passes the run's hint to the client. -/
def processFilesApp (g : GitEnv) (o : OllamaEnv) (hint : String)
    (staged : List String) : List (String × String) × List Event :=
  processFiles (fun p d => summarize_file_changes o p d hint) g staged

/-- The loop of `gcommit.py`. -/
def processFilesPlain (g : GitEnv) (o : OllamaEnv)
    (staged : List String) : List (String × String) × List Event :=
  processFiles (fun p d => summarize_file_changes_plain o p d) g staged

/-- The final commit step shared by both orchestrators: invoke
`commit_changes` with the finalized message; exit 0 on success, 1 on failure. -/
def commitStep (g : GitEnv) (final_message : String) (evs : List Event) :
    Nat × List Event :=
  if commit_changes g final_message then (0, evs ++ [Event.commitCall final_message])
  else (1, evs ++ [Event.commitCall final_message])

/-- The `while True` confirmation loop of `gcommit.py` (lines 250-263) over the
successive raw `input()` lines.  `some (some m)` = commit with `m` (accept or
replacement), `some none` = cancelled with 'n', `none` = the input stream ran
out (EOFError aborts the process abnormally). -/
def confirmPlain (commit_message : String) : List String → Option (Option String)
  | [] => none
  | line :: rest =>
    if pyLower (pyStrip line) = "y" then some (some commit_message)
    else if pyLower (pyStrip line) = "n" then some none
    else if pyStrip line ≠ "" then some (some (pyStrip line))
    else confirmPlain commit_message rest

/-- The events accumulated by `gcommit_app.py` up to (and including) aggregate
generation: the availability probe, the per-file loop, the
`generate_commit_message` invocation and its request. -/
def eventsPreCommitApp (g : GitEnv) (o : OllamaEnv) (hint : String) : List Event :=
  (is_available o).2 ++ (processFilesApp g o hint (get_staged_files g)).2
    ++ Event.generateCall (processFilesApp g o hint (get_staged_files g)).1
      :: (generate_commit_message o (processFilesApp g o hint (get_staged_files g)).1 hint).2

/-- Same for `gcommit.py`. -/
def eventsPreCommitPlain (g : GitEnv) (o : OllamaEnv) : List Event :=
  (is_available o).2 ++ (processFilesPlain g o (get_staged_files g)).2
    ++ Event.generateCall (processFilesPlain g o (get_staged_files g)).1
      :: (generate_commit_message_plain o (processFilesPlain g o (get_staged_files g)).1).2

/-- `GCommit.run` of `gcommit_app.py` (lines 59-163): exit code and event
trace.  The untracked-files warning and all terminal rendering are pure output
and contribute no events.  The confirmation choice and the edit-prompt answer
(`editResp`; `none` = the user accepted the prompt's default, which is the
generated message) are supplied by the environment. -/
def runApp (g : GitEnv) (o : OllamaEnv) (hint : String) (choice : Choice)
    (editResp : Option String) : Nat × List Event :=
  if g.revParseOk = false then (1, [])
  else if get_staged_files g = [] then (0, [])
  else if (is_available o).1 = false then (1, (is_available o).2)
  else if (processFilesApp g o hint (get_staged_files g)).1 = [] then
    (1, (is_available o).2 ++ (processFilesApp g o hint (get_staged_files g)).2)
  else
    match (generate_commit_message o (processFilesApp g o hint (get_staged_files g)).1 hint).1 with
    | none => (1, eventsPreCommitApp g o hint)
    | some commit_message =>
      match choice with
      | Choice.accept => commitStep g commit_message (eventsPreCommitApp g o hint)
      | Choice.reject => (0, eventsPreCommitApp g o hint)
      | Choice.edit => commitStep g (editResp.getD commit_message) (eventsPreCommitApp g o hint)

/-- `GCommit.run` of `gcommit.py` (lines 194-270). -/
def runPlain (g : GitEnv) (o : OllamaEnv) (inputs : List String) : Nat × List Event :=
  if g.revParseOk = false then (1, [])
  else if get_staged_files g = [] then (0, [])
  else if (is_available o).1 = false then (1, (is_available o).2)
  else if (processFilesPlain g o (get_staged_files g)).1 = [] then
    (1, (is_available o).2 ++ (processFilesPlain g o (get_staged_files g)).2)
  else
    match (generate_commit_message_plain o (processFilesPlain g o (get_staged_files g)).1).1 with
    | none => (1, eventsPreCommitPlain g o)
    | some commit_message =>
      match confirmPlain commit_message inputs with
      | none => (1, eventsPreCommitPlain g o)
      | some none => (0, eventsPreCommitPlain g o)
      | some (some final_message) => commitStep g final_message (eventsPreCommitPlain g o)

/-! ## Event extraction -/

/-- Messages of all `git commit` invocations in a trace. -/
def commitMsgsOf (evs : List Event) : List String :=
  evs.filterMap fun e =>
    match e with
    | Event.commitCall m => some m
    | _ => none

/-- Summary sequences of all `generate_commit_message` invocations in a trace. -/
def genCallsOf (evs : List Event) : List (List (String × String)) :=
  evs.filterMap fun e =>
    match e with
    | Event.generateCall s => some s
    | _ => none

/-- Arguments of all `summarize_file_changes` invocations in a trace. -/
def summarizeCallsOf (evs : List Event) : List (String × String) :=
  evs.filterMap fun e =>
    match e with
    | Event.summarizeCall p d => some (p, d)
    | _ => none

/-! ## Concrete environments (used by the closed evaluation corollaries) -/

/-- A repository with two staged files, both with non-blank diffs. -/
def gitOkEnv : GitEnv :=
  { revParseOk := true
    lsFilesOut := some ""
    diffNamesOut := some "a.py\nb.py"
    fileDiffOut := fun p =>
      if p = "a.py" then some "+a\n" else if p = "b.py" then some "+b\n" else none
    commitOk := fun _ => true }

/-- A repository whose staged-diff command prints only whitespace. -/
def gitBlankDiffEnv : GitEnv :=
  { revParseOk := true
    lsFilesOut := some ""
    diffNamesOut := some "a.py"
    fileDiffOut := fun _ => some "  \n"
    commitOk := fun _ => true }

/-- A repository with nothing staged. -/
def gitNoStagedEnv : GitEnv :=
  { revParseOk := true
    lsFilesOut := some ""
    diffNamesOut := some ""
    fileDiffOut := fun _ => none
    commitOk := fun _ => true }

/-- An Ollama server that answers every generation request with status 200
and the text "feat: add things". -/
def ollamaOkEnv : OllamaEnv :=
  { tagsStatus := some 200
    genResp := fun _ => some (200, "feat: add things") }

/-- An unreachable Ollama server. -/
def ollamaDownEnv : OllamaEnv :=
  { tagsStatus := none
    genResp := fun _ => none }

/-- An Ollama server that is alive but fails every generation request. -/
def ollamaNoRespEnv : OllamaEnv :=
  { tagsStatus := some 200
    genResp := fun _ => none }

/-! ## Helper lemmas: Python strip -/

theorem pyStripList_dropWhile (l : List Char) :
    (pyStripList l).dropWhile pyIsSpace = pyStripList l := by
  cases hz : pyStripList l with
  | nil => rfl
  | cons a t =>
    obtain ⟨u, hu'⟩ := List.rdropWhile_prefix pyIsSpace (l.dropWhile pyIsSpace)
    have hu : pyStripList l ++ u = List.dropWhile pyIsSpace l := hu'
    rw [hz, List.cons_append] at hu
    have hd : List.dropWhile pyIsSpace (l.dropWhile pyIsSpace) = l.dropWhile pyIsSpace :=
      List.dropWhile_idempotent _ _
    rw [← hu] at hd
    have ha : ¬ pyIsSpace a = true := by
      intro hpa
      rw [List.dropWhile_cons_of_pos hpa] at hd
      have hlen := congrArg List.length hd
      have hle := (List.dropWhile_sublist (l := t ++ u) pyIsSpace).length_le
      simp only [List.length_cons] at hlen
      omega
    rw [List.dropWhile_cons_of_neg ha]

theorem pyStripList_idem (l : List Char) : pyStripList (pyStripList l) = pyStripList l := by
  show List.rdropWhile pyIsSpace ((pyStripList l).dropWhile pyIsSpace) = pyStripList l
  rw [pyStripList_dropWhile]
  show List.rdropWhile pyIsSpace (List.rdropWhile pyIsSpace (l.dropWhile pyIsSpace)) =
    List.rdropWhile pyIsSpace (l.dropWhile pyIsSpace)
  rw [List.rdropWhile_idempotent]

theorem pyStrip_idem (s : String) : pyStrip (pyStrip s) = pyStrip s :=
  congrArg String.mk (pyStripList_idem s.data)

/-! ## Helper lemmas about traces and the per-file loop -/

theorem commitMsgsOf_append (a b : List Event) :
    commitMsgsOf (a ++ b) = commitMsgsOf a ++ commitMsgsOf b :=
  List.filterMap_append a b _

theorem genCallsOf_append (a b : List Event) :
    genCallsOf (a ++ b) = genCallsOf a ++ genCallsOf b :=
  List.filterMap_append a b _

theorem genCallsOf_summarizeCall_cons (p d : String) (evs : List Event) :
    genCallsOf (Event.summarizeCall p d :: evs) = genCallsOf evs := rfl

theorem commitMsgsOf_summarizeCall_cons (p d : String) (evs : List Event) :
    commitMsgsOf (Event.summarizeCall p d :: evs) = commitMsgsOf evs := rfl

theorem genCallsOf_generateCall_cons (s : List (String × String)) (evs : List Event) :
    genCallsOf (Event.generateCall s :: evs) = s :: genCallsOf evs := rfl

theorem commitMsgsOf_generateCall_cons (s : List (String × String)) (evs : List Event) :
    commitMsgsOf (Event.generateCall s :: evs) = commitMsgsOf evs := rfl

theorem genCallsOf_tagsReq : genCallsOf [Event.tagsReq] = [] := rfl

theorem commitMsgsOf_tagsReq : commitMsgsOf [Event.tagsReq] = [] := rfl

theorem is_available_snd (o : OllamaEnv) : (is_available o).2 = [Event.tagsReq] := rfl

theorem postGenerate_snd (o : OllamaEnv) (prompt : String) :
    (postGenerate o prompt).2 = [Event.genReq prompt] := rfl

/-- A summarization call (`ollama_client.py`) emits no aggregate-generation
call and no commit. -/
theorem summarize_events_clean (o : OllamaEnv) (p d h : String) :
    genCallsOf (summarize_file_changes o p d h).2 = [] ∧
    commitMsgsOf (summarize_file_changes o p d h).2 = [] := by
  unfold summarize_file_changes
  split
  · simp [genCallsOf, commitMsgsOf]
  · simp [postGenerate, genCallsOf, commitMsgsOf]

/-- Same for the `gcommit.py` client. -/
theorem summarize_plain_events_clean (o : OllamaEnv) (p d : String) :
    genCallsOf (summarize_file_changes_plain o p d).2 = [] ∧
    commitMsgsOf (summarize_file_changes_plain o p d).2 = [] := by
  unfold summarize_file_changes_plain
  split
  · simp [genCallsOf, commitMsgsOf]
  · simp [postGenerate, genCallsOf, commitMsgsOf]

/-- An aggregate-generation call emits no generate-invocation event of its own
and no commit. -/
theorem generate_events_clean (o : OllamaEnv) (fs : List (String × String)) (h : String) :
    genCallsOf (generate_commit_message o fs h).2 = [] ∧
    commitMsgsOf (generate_commit_message o fs h).2 = [] := by
  unfold generate_commit_message
  split
  · simp [genCallsOf, commitMsgsOf]
  · simp [postGenerate, genCallsOf, commitMsgsOf]

theorem generate_plain_events_clean (o : OllamaEnv) (fs : List (String × String)) :
    genCallsOf (generate_commit_message_plain o fs).2 = [] ∧
    commitMsgsOf (generate_commit_message_plain o fs).2 = [] := by
  unfold generate_commit_message_plain
  split
  · simp [genCallsOf, commitMsgsOf]
  · simp [postGenerate, genCallsOf, commitMsgsOf]

/-- One loop iteration appends either nothing or the single pair
`(filepath, summary)`. -/
theorem summarizeStep_fst (summ : String → String → Option String × List Event)
    (g : GitEnv) (f : String) :
    (summarizeStep summ g f).1 = [] ∨
      ∃ s, (summarizeStep summ g f).1 = [(f, s)] := by
  unfold summarizeStep
  cases get_file_diff g f with
  | none => exact Or.inl rfl
  | some diff =>
    by_cases hd : diff = ""
    · simp [hd]
    · simp only [if_neg hd]
      cases (summ f diff).1 with
      | none => exact Or.inl rfl
      | some summary =>
        by_cases hsum : summary = ""
        · simp [hsum]
        · simp only [if_neg hsum]
          exact Or.inr ⟨summary, rfl⟩

/-- A path appended by one loop iteration is that iteration's path, and its
staged diff was present. -/
theorem summarizeStep_mem_fst (summ : String → String → Option String × List Event)
    (g : GitEnv) (f q : String)
    (h : q ∈ (summarizeStep summ g f).1.map Prod.fst) :
    q = f ∧ get_file_diff g f ≠ none := by
  unfold summarizeStep at h
  cases hdf : get_file_diff g f with
  | none => simp [hdf] at h
  | some diff =>
    simp only [hdf] at h
    refine ⟨?_, by simp [hdf]⟩
    by_cases hd : diff = ""
    · rw [if_pos hd] at h; simp at h
    · rw [if_neg hd] at h
      cases hsr : (summ f diff).1 with
      | none => simp only [hsr] at h; simp at h
      | some summary =>
        simp only [hsr] at h
        by_cases hsum : summary = ""
        · rw [if_pos hsum] at h; simp at h
        · rw [if_neg hsum] at h
          simpa using h

theorem summarizeStep_events_clean (summ : String → String → Option String × List Event)
    (g : GitEnv) (f : String)
    (hs : ∀ p d, genCallsOf (summ p d).2 = [] ∧ commitMsgsOf (summ p d).2 = []) :
    genCallsOf (summarizeStep summ g f).2 = [] ∧
    commitMsgsOf (summarizeStep summ g f).2 = [] := by
  unfold summarizeStep
  cases get_file_diff g f with
  | none => exact ⟨rfl, rfl⟩
  | some diff =>
    by_cases hd : diff = ""
    · simp only [if_pos hd]
      exact ⟨rfl, rfl⟩
    · simp only [if_neg hd]
      cases (summ f diff).1 with
      | none =>
        exact ⟨(genCallsOf_summarizeCall_cons f diff _).trans (hs f diff).1,
               (commitMsgsOf_summarizeCall_cons f diff _).trans (hs f diff).2⟩
      | some summary =>
        by_cases hsum : summary = ""
        · simp only [if_pos hsum]
          exact ⟨(genCallsOf_summarizeCall_cons f diff _).trans (hs f diff).1,
                 (commitMsgsOf_summarizeCall_cons f diff _).trans (hs f diff).2⟩
        · simp only [if_neg hsum]
          exact ⟨(genCallsOf_summarizeCall_cons f diff _).trans (hs f diff).1,
                 (commitMsgsOf_summarizeCall_cons f diff _).trans (hs f diff).2⟩

theorem processFiles_events_clean (summ : String → String → Option String × List Event)
    (g : GitEnv)
    (hs : ∀ p d, genCallsOf (summ p d).2 = [] ∧ commitMsgsOf (summ p d).2 = []) :
    ∀ staged, genCallsOf (processFiles summ g staged).2 = [] ∧
      commitMsgsOf (processFiles summ g staged).2 = [] := by
  intro staged
  induction staged with
  | nil => simp [processFiles, genCallsOf, commitMsgsOf]
  | cons f rest ih =>
    have hstep := summarizeStep_events_clean summ g f hs
    simp only [processFiles]
    constructor
    · rw [genCallsOf_append, hstep.1, ih.1]
      rfl
    · rw [commitMsgsOf_append, hstep.2, ih.2]
      rfl

/-- Order preservation: the paths of the collected summary sequence form an
in-order subsequence of the staged-file enumeration. -/
theorem processFiles_fst_sublist (summ : String → String → Option String × List Event)
    (g : GitEnv) : ∀ staged,
    List.Sublist ((processFiles summ g staged).1.map Prod.fst) staged := by
  intro staged
  induction staged with
  | nil => simp [processFiles]
  | cons f rest ih =>
    simp only [processFiles, List.map_append]
    rcases summarizeStep_fst summ g f with h | ⟨s, h⟩
    · rw [h]
      simpa using List.Sublist.cons f ih
    · rw [h]
      simpa using List.Sublist.cons₂ f ih

theorem commitStep_snd (g : GitEnv) (m : String) (evs : List Event) :
    (commitStep g m evs).2 = evs ++ [Event.commitCall m] := by
  unfold commitStep
  split <;> rfl

theorem eventsPreCommitApp_commitMsgs (g : GitEnv) (o : OllamaEnv) (hint : String) :
    commitMsgsOf (eventsPreCommitApp g o hint) = [] := by
  have hproc := (processFiles_events_clean _ g
    (fun p d => summarize_events_clean o p d hint) (get_staged_files g)).2
  have hgen := (generate_events_clean o
    (processFiles (fun p d => summarize_file_changes o p d hint) g (get_staged_files g)).1 hint).2
  unfold eventsPreCommitApp processFilesApp
  rw [commitMsgsOf_append, commitMsgsOf_append, is_available_snd, commitMsgsOf_tagsReq,
    commitMsgsOf_generateCall_cons]
  rw [hproc, hgen]
  rfl

theorem eventsPreCommitPlain_commitMsgs (g : GitEnv) (o : OllamaEnv) :
    commitMsgsOf (eventsPreCommitPlain g o) = [] := by
  have hproc := (processFiles_events_clean _ g
    (fun p d => summarize_plain_events_clean o p d) (get_staged_files g)).2
  have hgen := (generate_plain_events_clean o
    (processFiles (fun p d => summarize_file_changes_plain o p d) g (get_staged_files g)).1).2
  unfold eventsPreCommitPlain processFilesPlain
  rw [commitMsgsOf_append, commitMsgsOf_append, is_available_snd, commitMsgsOf_tagsReq,
    commitMsgsOf_generateCall_cons]
  rw [hproc, hgen]
  rfl

theorem eventsPreCommitApp_genCalls (g : GitEnv) (o : OllamaEnv) (hint : String) :
    genCallsOf (eventsPreCommitApp g o hint) =
      [(processFilesApp g o hint (get_staged_files g)).1] := by
  have hproc := (processFiles_events_clean _ g
    (fun p d => summarize_events_clean o p d hint) (get_staged_files g)).1
  have hgen := (generate_events_clean o
    (processFiles (fun p d => summarize_file_changes o p d hint) g (get_staged_files g)).1 hint).1
  unfold eventsPreCommitApp processFilesApp
  rw [genCallsOf_append, genCallsOf_append, is_available_snd, genCallsOf_tagsReq,
    genCallsOf_generateCall_cons]
  rw [hproc, hgen]
  rfl

theorem eventsPreCommitPlain_genCalls (g : GitEnv) (o : OllamaEnv) :
    genCallsOf (eventsPreCommitPlain g o) =
      [(processFilesPlain g o (get_staged_files g)).1] := by
  have hproc := (processFiles_events_clean _ g
    (fun p d => summarize_plain_events_clean o p d) (get_staged_files g)).1
  have hgen := (generate_plain_events_clean o
    (processFiles (fun p d => summarize_file_changes_plain o p d) g (get_staged_files g)).1).1
  unfold eventsPreCommitPlain processFilesPlain
  rw [genCallsOf_append, genCallsOf_append, is_available_snd, genCallsOf_tagsReq,
    genCallsOf_generateCall_cons]
  rw [hproc, hgen]
  rfl

/-- Any path appearing in the collected summary sequence had a present
(non-blank, successfully fetched) staged diff. -/
theorem processFiles_mem_fst (summ : String → String → Option String × List Event)
    (g : GitEnv) : ∀ (staged : List String) (q : String),
    q ∈ (processFiles summ g staged).1.map Prod.fst → get_file_diff g q ≠ none := by
  intro staged
  induction staged with
  | nil => intro q hq; simp [processFiles] at hq
  | cons f rest ih =>
    intro q hq
    simp only [processFiles, List.map_append, List.mem_append] at hq
    rcases hq with hq | hq
    · obtain ⟨rfl, hne⟩ := summarizeStep_mem_fst summ g f q hq
      exact hne
    · exact ih q hq

/-- Members of the stripped-lines list are non-blank and already stripped. -/
theorem stripLines_mem (out p : String) (h : p ∈ stripLines out) :
    p ≠ "" ∧ pyStrip p = p := by
  unfold stripLines at h
  rw [List.mem_filter] at h
  obtain ⟨hmem, hne⟩ := h
  rw [List.mem_map] at hmem
  obtain ⟨q, _, rfl⟩ := hmem
  exact ⟨by simpa using hne, pyStrip_idem q⟩

/-- The aggregate-generation invocations of a whole `gcommit_app.py` run:
none, or exactly one with the collected summary sequence. -/
theorem genCallsOf_runApp (g : GitEnv) (o : OllamaEnv) (hint : String)
    (choice : Choice) (editResp : Option String) :
    genCallsOf (runApp g o hint choice editResp).2 = [] ∨
    genCallsOf (runApp g o hint choice editResp).2 =
      [(processFilesApp g o hint (get_staged_files g)).1] := by
  unfold runApp
  by_cases h1 : g.revParseOk = false
  · rw [if_pos h1]; exact Or.inl rfl
  · rw [if_neg h1]
    by_cases h2 : get_staged_files g = []
    · rw [if_pos h2]; exact Or.inl rfl
    · rw [if_neg h2]
      by_cases h3 : (is_available o).1 = false
      · rw [if_pos h3, is_available_snd]; exact Or.inl rfl
      · rw [if_neg h3]
        by_cases h4 : (processFilesApp g o hint (get_staged_files g)).1 = []
        · rw [if_pos h4]
          refine Or.inl ?_
          rw [genCallsOf_append, is_available_snd, genCallsOf_tagsReq]
          unfold processFilesApp
          rw [(processFiles_events_clean _ g
            (fun p d => summarize_events_clean o p d hint) _).1]
          rfl
        · rw [if_neg h4]
          refine Or.inr ?_
          cases hg : (generate_commit_message o
              (processFilesApp g o hint (get_staged_files g)).1 hint).1 with
          | none => exact eventsPreCommitApp_genCalls g o hint
          | some M =>
            cases choice with
            | accept =>
              rw [commitStep_snd, genCallsOf_append, eventsPreCommitApp_genCalls]
              rfl
            | reject => exact eventsPreCommitApp_genCalls g o hint
            | edit =>
              rw [commitStep_snd, genCallsOf_append, eventsPreCommitApp_genCalls]
              rfl

/-- Same for `gcommit.py`. -/
theorem genCallsOf_runPlain (g : GitEnv) (o : OllamaEnv) (inputs : List String) :
    genCallsOf (runPlain g o inputs).2 = [] ∨
    genCallsOf (runPlain g o inputs).2 =
      [(processFilesPlain g o (get_staged_files g)).1] := by
  unfold runPlain
  by_cases h1 : g.revParseOk = false
  · rw [if_pos h1]; exact Or.inl rfl
  · rw [if_neg h1]
    by_cases h2 : get_staged_files g = []
    · rw [if_pos h2]; exact Or.inl rfl
    · rw [if_neg h2]
      by_cases h3 : (is_available o).1 = false
      · rw [if_pos h3, is_available_snd]; exact Or.inl rfl
      · rw [if_neg h3]
        by_cases h4 : (processFilesPlain g o (get_staged_files g)).1 = []
        · rw [if_pos h4]
          refine Or.inl ?_
          rw [genCallsOf_append, is_available_snd, genCallsOf_tagsReq]
          unfold processFilesPlain
          rw [(processFiles_events_clean _ g
            (fun p d => summarize_plain_events_clean o p d) _).1]
          rfl
        · rw [if_neg h4]
          refine Or.inr ?_
          cases hg : (generate_commit_message_plain o
              (processFilesPlain g o (get_staged_files g)).1).1 with
          | none => exact eventsPreCommitPlain_genCalls g o
          | some M =>
            show genCallsOf (match confirmPlain M inputs with
              | none => (1, eventsPreCommitPlain g o)
              | some none => (0, eventsPreCommitPlain g o)
              | some (some final_message) =>
                commitStep g final_message (eventsPreCommitPlain g o)).2 =
              [(processFilesPlain g o (get_staged_files g)).1]
            cases confirmPlain M inputs with
            | none => exact eventsPreCommitPlain_genCalls g o
            | some fm =>
              cases fm with
              | none => exact eventsPreCommitPlain_genCalls g o
              | some final_message =>
                rw [commitStep_snd, genCallsOf_append, eventsPreCommitPlain_genCalls]
                rfl

/-- `gcommit_app.py` evaluated past a successful generation step. -/
theorem runApp_confirm (g : GitEnv) (o : OllamaEnv) (hint : String) (choice : Choice)
    (editResp : Option String) (M : String)
    (h1 : g.revParseOk = true)
    (h2 : get_staged_files g ≠ [])
    (h3 : (is_available o).1 = true)
    (h4 : (processFilesApp g o hint (get_staged_files g)).1 ≠ [])
    (h5 : (generate_commit_message o (processFilesApp g o hint (get_staged_files g)).1 hint).1
      = some M) :
    runApp g o hint choice editResp =
      match choice with
      | Choice.accept => commitStep g M (eventsPreCommitApp g o hint)
      | Choice.reject => (0, eventsPreCommitApp g o hint)
      | Choice.edit => commitStep g (editResp.getD M) (eventsPreCommitApp g o hint) := by
  unfold runApp
  rw [if_neg (by simp [h1]), if_neg h2, if_neg (by simp [h3]), if_neg h4, h5]

/-- `gcommit.py` evaluated past a successful generation step. -/
theorem runPlain_confirm (g : GitEnv) (o : OllamaEnv) (inputs : List String) (M : String)
    (h1 : g.revParseOk = true)
    (h2 : get_staged_files g ≠ [])
    (h3 : (is_available o).1 = true)
    (h4 : (processFilesPlain g o (get_staged_files g)).1 ≠ [])
    (h5 : (generate_commit_message_plain o (processFilesPlain g o (get_staged_files g)).1).1
      = some M) :
    runPlain g o inputs =
      match confirmPlain M inputs with
      | none => (1, eventsPreCommitPlain g o)
      | some none => (0, eventsPreCommitPlain g o)
      | some (some final_message) => commitStep g final_message (eventsPreCommitPlain g o) := by
  unfold runPlain
  rw [if_neg (by simp [h1]), if_neg h2, if_neg (by simp [h3]), if_neg h4, h5]

/-! ## Claims -/

/-- Claim C3: for every run in which the staged-file enumeration returns the
empty sequence (after a successful repository check, which is the only way the
enumeration is reached), both orchestrators terminate with exit code 0 and an
empty event trace — so no commit is made and no HTTP request (probe or
generation) is issued. -/
theorem C3_empty_staged_success (g : GitEnv) (o : OllamaEnv) (hint : String)
    (choice : Choice) (editResp : Option String) (inputs : List String)
    (hrepo : g.revParseOk = true) (hstaged : get_staged_files g = []) :
    runApp g o hint choice editResp = (0, []) ∧ runPlain g o inputs = (0, []) := by
  constructor
  · unfold runApp
    rw [if_neg (by simp [hrepo]), if_pos hstaged]
  · unfold runPlain
    rw [if_neg (by simp [hrepo]), if_pos hstaged]

theorem C3_witness :
    runApp gitNoStagedEnv ollamaOkEnv "" Choice.accept none = (0, []) ∧
    runPlain gitNoStagedEnv ollamaOkEnv [] = (0, []) :=
  C3_empty_staged_success gitNoStagedEnv ollamaOkEnv "" Choice.accept none [] rfl (by decide)

/-- Claim C4: when the availability probe reports the inference service
unavailable (in a run that reaches the probe: repository check passed, staged
files non-empty), both orchestrators exit with code 1 and their whole trace is
the single probe request — in particular `summarize_file_changes` and
`generate_commit_message` are never called. -/
theorem C4_unavailable_short_circuit (g : GitEnv) (o : OllamaEnv) (hint : String)
    (choice : Choice) (editResp : Option String) (inputs : List String)
    (hrepo : g.revParseOk = true) (hstaged : get_staged_files g ≠ [])
    (hdown : (is_available o).1 = false) :
    runApp g o hint choice editResp = (1, [Event.tagsReq]) ∧
    runPlain g o inputs = (1, [Event.tagsReq]) ∧
    summarizeCallsOf [Event.tagsReq] = [] ∧ genCallsOf [Event.tagsReq] = [] := by
  refine ⟨?_, ?_, rfl, rfl⟩
  · unfold runApp
    rw [if_neg (by simp [hrepo]), if_neg hstaged, if_pos hdown, is_available_snd]
  · unfold runPlain
    rw [if_neg (by simp [hrepo]), if_neg hstaged, if_pos hdown, is_available_snd]

theorem C4_witness :
    runApp gitOkEnv ollamaDownEnv "" Choice.accept none = (1, [Event.tagsReq]) ∧
    runPlain gitOkEnv ollamaDownEnv [] = (1, [Event.tagsReq]) ∧
    summarizeCallsOf [Event.tagsReq] = [] ∧ genCallsOf [Event.tagsReq] = [] :=
  C4_unavailable_short_circuit gitOkEnv ollamaDownEnv "" Choice.accept none []
    rfl (by decide) rfl

/-- Claim C9: `get_file_diff` returns `None` when the diff command fails and
when the command reports no staged change for the path (blank stdout); whenever
it does return a text value, that value is non-blank (its stripped form is
non-empty). -/
theorem C9_get_file_diff_contract (g : GitEnv) (p : String) :
    (g.fileDiffOut p = none → get_file_diff g p = none) ∧
    (∀ out, g.fileDiffOut p = some out → pyStrip out = "" → get_file_diff g p = none) ∧
    (∀ t, get_file_diff g p = some t → pyStrip t ≠ "") := by
  refine ⟨?_, ?_, ?_⟩
  · intro h
    unfold get_file_diff
    rw [h]
  · intro out hout hblank
    unfold get_file_diff
    rw [hout]
    simp [hblank]
  · intro t ht
    unfold get_file_diff at ht
    cases hc : g.fileDiffOut p with
    | none => rw [hc] at ht; exact Option.noConfusion ht
    | some out =>
      simp only [hc] at ht
      by_cases hb : pyStrip out ≠ ""
      · rw [if_pos hb] at ht
        cases ht
        exact hb
      · rw [if_neg hb] at ht
        exact Option.noConfusion ht

theorem C9_witness :
    get_file_diff gitOkEnv "c.py" = none ∧
    get_file_diff gitBlankDiffEnv "a.py" = none ∧
    pyStrip "+a\n" ≠ "" :=
  ⟨(C9_get_file_diff_contract gitOkEnv "c.py").1 (by decide),
   (C9_get_file_diff_contract gitBlankDiffEnv "a.py").2.1 "  \n" (by decide) (by decide),
   (C9_get_file_diff_contract gitOkEnv "a.py").2.2 "+a\n" (by decide)⟩

/-- Claim C10: every path in the lists returned by `get_staged_files` and
`has_untracked_files` is non-empty, already stripped, and in particular
non-empty after whitespace stripping — the pipeline never iterates over an
empty or whitespace-only path. -/
theorem C10_listed_paths_nonblank (g : GitEnv) (p : String) :
    (p ∈ get_staged_files g → p ≠ "" ∧ pyStrip p = p ∧ pyStrip p ≠ "") ∧
    (p ∈ (has_untracked_files g).2 → p ≠ "" ∧ pyStrip p = p ∧ pyStrip p ≠ "") := by
  constructor
  · intro h
    unfold get_staged_files at h
    cases hc : g.diffNamesOut with
    | none => rw [hc] at h; simp at h
    | some out =>
      rw [hc] at h
      obtain ⟨h1, h2⟩ := stripLines_mem out p h
      exact ⟨h1, h2, by rw [h2]; exact h1⟩
  · intro h
    unfold has_untracked_files at h
    cases hc : g.lsFilesOut with
    | none => rw [hc] at h; simp at h
    | some out =>
      rw [hc] at h
      obtain ⟨h1, h2⟩ := stripLines_mem out p h
      exact ⟨h1, h2, by rw [h2]; exact h1⟩

theorem C10_witness :
    "a.py" ≠ "" ∧ pyStrip "a.py" = "a.py" ∧ pyStrip "a.py" ≠ "" :=
  (C10_listed_paths_nonblank gitOkEnv "a.py").1 (by decide)

/-- Claim C1: in every run of either orchestrator, any summary sequence passed
to `generate_commit_message` (recorded as a `generateCall` event) has its paths
forming an in-order subsequence of the staged-file enumeration — summaries are
appended one per processed file in loop order. -/
theorem C1_summary_order_preserved (g : GitEnv) (o : OllamaEnv) (hint : String)
    (choice : Choice) (editResp : Option String) (inputs : List String)
    (s : List (String × String)) :
    (s ∈ genCallsOf (runApp g o hint choice editResp).2 →
      List.Sublist (s.map Prod.fst) (get_staged_files g)) ∧
    (s ∈ genCallsOf (runPlain g o inputs).2 →
      List.Sublist (s.map Prod.fst) (get_staged_files g)) := by
  constructor
  · intro hmem
    rcases genCallsOf_runApp g o hint choice editResp with h | h
    · rw [h] at hmem
      simp at hmem
    · rw [h, List.mem_singleton] at hmem
      subst hmem
      exact processFiles_fst_sublist _ g _
  · intro hmem
    rcases genCallsOf_runPlain g o inputs with h | h
    · rw [h] at hmem
      simp at hmem
    · rw [h, List.mem_singleton] at hmem
      subst hmem
      exact processFiles_fst_sublist _ g _

theorem C1_witness :
    List.Sublist
      ([("a.py", "feat: add things"), ("b.py", "feat: add things")].map Prod.fst)
      (get_staged_files gitOkEnv) :=
  (C1_summary_order_preserved gitOkEnv ollamaOkEnv "" Choice.accept none []
    [("a.py", "feat: add things"), ("b.py", "feat: add things")]).1 (by decide)

/-- Claim C5: a blank diff makes `summarize_file_changes` (both variants)
return `None` with an empty trace — no network request; and a staged file whose
staged-diff command output is absent or blank never appears in the summary
sequence produced by the per-file loop of either orchestrator. -/
theorem C5_blank_diff_never_summarized :
    (∀ (o : OllamaEnv) (p d h : String), pyStrip d = "" →
        summarize_file_changes o p d h = (none, []) ∧
        summarize_file_changes_plain o p d = (none, [])) ∧
    (∀ (g : GitEnv) (o : OllamaEnv) (h p : String) (staged : List String),
        (∀ out, g.fileDiffOut p = some out → pyStrip out = "") →
        p ∉ (processFilesApp g o h staged).1.map Prod.fst ∧
        p ∉ (processFilesPlain g o staged).1.map Prod.fst) := by
  constructor
  · intro o p d h hblank
    constructor
    · unfold summarize_file_changes
      rw [if_pos hblank]
    · unfold summarize_file_changes_plain
      rw [if_pos hblank]
  · intro g o h p staged hdiff
    have hnone : get_file_diff g p = none := by
      unfold get_file_diff
      cases hc : g.fileDiffOut p with
      | none => rfl
      | some out => simp [hdiff out hc]
    constructor
    · intro hmem
      exact processFiles_mem_fst _ g staged p hmem hnone
    · intro hmem
      exact processFiles_mem_fst _ g staged p hmem hnone

theorem C5_witness :
    (summarize_file_changes ollamaOkEnv "a.py" " \n " "" = (none, []) ∧
     summarize_file_changes_plain ollamaOkEnv "a.py" " \n " = (none, [])) ∧
    ("c.py" ∉ (processFilesApp gitOkEnv ollamaOkEnv "" ["a.py", "c.py"]).1.map Prod.fst ∧
     "c.py" ∉ (processFilesPlain gitOkEnv ollamaOkEnv ["a.py", "c.py"]).1.map Prod.fst) :=
  ⟨C5_blank_diff_never_summarized.1 ollamaOkEnv "a.py" " \n " "" (by decide),
   C5_blank_diff_never_summarized.2 gitOkEnv ollamaOkEnv "" "c.py" ["a.py", "c.py"]
     (fun out hout => by
       rw [show gitOkEnv.fileDiffOut "c.py" = none by decide] at hout
       exact Option.noConfusion hout)⟩

/-- Claim C6: `generate_commit_message` (both variants) returns `None`
immediately on an empty summary sequence, with an empty trace (no network
call); on a non-empty sequence it sends exactly one generation request whose
prompt embeds the summaries rendered as "- path: summary" lines joined by
newlines, one per entry, in the original sequence order. -/
theorem C6_generate_prompt_rendering :
    (∀ (o : OllamaEnv) (h : String),
        generate_commit_message o [] h = (none, []) ∧
        generate_commit_message_plain o [] = (none, [])) ∧
    (∀ (o : OllamaEnv) (h : String) (fs : List (String × String)), fs ≠ [] →
        (generate_commit_message o fs h).2 = [Event.genReq (generatePrompt fs h)] ∧
        (generate_commit_message_plain o fs).2 = [Event.genReq (generatePromptPlain fs)] ∧
        generatePrompt fs h =
          genPromptHeader
            ++ String.intercalate "\n" (fs.map (fun q => "- " ++ q.1 ++ ": " ++ q.2)) ++ "\n"
            ++ (if h ≠ "" then "\nUser Initial Commit Message:\n" ++ h else "") ++ "\n" ∧
        generatePromptPlain fs =
          genPromptHeaderPlain
            ++ String.intercalate "\n" (fs.map (fun q => "- " ++ q.1 ++ ": " ++ q.2))
            ++ "\n\nProvide only the commit message, no additional text.") := by
  refine ⟨fun o h => ⟨rfl, rfl⟩, fun o h fs hne => ⟨?_, ?_, rfl, rfl⟩⟩
  · unfold generate_commit_message
    rw [if_neg hne, postGenerate_snd]
  · unfold generate_commit_message_plain
    rw [if_neg hne, postGenerate_snd]

theorem C6_witness :
    (generate_commit_message ollamaOkEnv [("a.py", "adds parsing"), ("b.py", "fixes typo")] "").2 =
      [Event.genReq (generatePrompt [("a.py", "adds parsing"), ("b.py", "fixes typo")] "")] :=
  (C6_generate_prompt_rendering.2 ollamaOkEnv ""
    [("a.py", "adds parsing"), ("b.py", "fixes typo")] (by decide)).1

/-- Claim C2: in a run that reaches the confirmation step with generated
message `M`, supplying a replacement message makes the run invoke commit with
exactly that replacement and nothing else.  For `gcommit_app.py` the
replacement `R` is the edit-prompt answer, used verbatim (any string, no
validation).  For `gcommit.py` the replacement `Rp` is the confirmation-loop
input line as the loop produces it (the code strips the raw line before
comparing, so `Rp` is stated strip-fixed), other than "y"/"n" and non-empty. -/
theorem C2_replacement_committed (g : GitEnv) (o : OllamaEnv) (hint M R : String)
    (h1 : g.revParseOk = true) (h2 : get_staged_files g ≠ [])
    (h3 : (is_available o).1 = true)
    (h4 : (processFilesApp g o hint (get_staged_files g)).1 ≠ [])
    (h5 : (generate_commit_message o
      (processFilesApp g o hint (get_staged_files g)).1 hint).1 = some M)
    (gp : GitEnv) (op : OllamaEnv) (Mp Rp : String)
    (hp1 : gp.revParseOk = true) (hp2 : get_staged_files gp ≠ [])
    (hp3 : (is_available op).1 = true)
    (hp4 : (processFilesPlain gp op (get_staged_files gp)).1 ≠ [])
    (hp5 : (generate_commit_message_plain op
      (processFilesPlain gp op (get_staged_files gp)).1).1 = some Mp)
    (hR1 : pyStrip Rp = Rp) (hR2 : pyLower Rp ≠ "y") (hR3 : pyLower Rp ≠ "n")
    (hR4 : Rp ≠ "") :
    commitMsgsOf (runApp g o hint Choice.edit (some R)).2 = [R] ∧
    commitMsgsOf (runPlain gp op [Rp]).2 = [Rp] := by
  constructor
  · rw [runApp_confirm g o hint Choice.edit (some R) M h1 h2 h3 h4 h5]
    show commitMsgsOf (commitStep g R (eventsPreCommitApp g o hint)).2 = [R]
    rw [commitStep_snd, commitMsgsOf_append, eventsPreCommitApp_commitMsgs]
    rfl
  · rw [runPlain_confirm gp op [Rp] Mp hp1 hp2 hp3 hp4 hp5]
    have hconf : confirmPlain Mp [Rp] = some (some Rp) := by
      show (if pyLower (pyStrip Rp) = "y" then some (some Mp)
            else if pyLower (pyStrip Rp) = "n" then some none
            else if pyStrip Rp ≠ "" then some (some (pyStrip Rp))
            else confirmPlain Mp []) = some (some Rp)
      rw [hR1, if_neg hR2, if_neg hR3, if_pos hR4]
    rw [hconf]
    show commitMsgsOf (commitStep gp Rp (eventsPreCommitPlain gp op)).2 = [Rp]
    rw [commitStep_snd, commitMsgsOf_append, eventsPreCommitPlain_commitMsgs]
    rfl

theorem C2_witness :
    commitMsgsOf (runApp gitOkEnv ollamaOkEnv "" Choice.edit (some " chore: tweak ")).2 =
      [" chore: tweak "] ∧
    commitMsgsOf (runPlain gitOkEnv ollamaOkEnv ["chore: tweak"]).2 = ["chore: tweak"] :=
  C2_replacement_committed gitOkEnv ollamaOkEnv "" "feat: add things" " chore: tweak "
    rfl (by decide) rfl (by decide) (by decide)
    gitOkEnv ollamaOkEnv "feat: add things" "chore: tweak"
    rfl (by decide) rfl (by decide) (by decide)
    (by decide) (by decide) (by decide) (by decide)

/-- Claim C7: in a run that reaches the confirmation step with generated
message `M`, a reject response ("reject" in `gcommit_app.py`, a line stripping
and lowercasing to "n" in `gcommit.py`) terminates the run with exit code 0 and
no commit invocation. -/
theorem C7_reject_no_commit (g : GitEnv) (o : OllamaEnv) (hint M : String)
    (editResp : Option String)
    (h1 : g.revParseOk = true) (h2 : get_staged_files g ≠ [])
    (h3 : (is_available o).1 = true)
    (h4 : (processFilesApp g o hint (get_staged_files g)).1 ≠ [])
    (h5 : (generate_commit_message o
      (processFilesApp g o hint (get_staged_files g)).1 hint).1 = some M)
    (gp : GitEnv) (op : OllamaEnv) (Mp line : String)
    (hp1 : gp.revParseOk = true) (hp2 : get_staged_files gp ≠ [])
    (hp3 : (is_available op).1 = true)
    (hp4 : (processFilesPlain gp op (get_staged_files gp)).1 ≠ [])
    (hp5 : (generate_commit_message_plain op
      (processFilesPlain gp op (get_staged_files gp)).1).1 = some Mp)
    (hline : pyLower (pyStrip line) = "n") :
    (runApp g o hint Choice.reject editResp).1 = 0 ∧
    commitMsgsOf (runApp g o hint Choice.reject editResp).2 = [] ∧
    (runPlain gp op [line]).1 = 0 ∧
    commitMsgsOf (runPlain gp op [line]).2 = [] := by
  have happ := runApp_confirm g o hint Choice.reject editResp M h1 h2 h3 h4 h5
  have hconf : confirmPlain Mp [line] = some none := by
    show (if pyLower (pyStrip line) = "y" then some (some Mp)
          else if pyLower (pyStrip line) = "n" then some none
          else if pyStrip line ≠ "" then some (some (pyStrip line))
          else confirmPlain Mp []) = some none
    rw [hline, if_neg (by decide : ¬ ("n" : String) = "y"), if_pos rfl]
  have hpl := runPlain_confirm gp op [line] Mp hp1 hp2 hp3 hp4 hp5
  rw [hconf] at hpl
  refine ⟨?_, ?_, ?_, ?_⟩
  · rw [happ]
  · rw [happ]
    exact eventsPreCommitApp_commitMsgs g o hint
  · rw [hpl]
  · rw [hpl]
    exact eventsPreCommitPlain_commitMsgs gp op

theorem C7_witness :
    (runApp gitOkEnv ollamaOkEnv "" Choice.reject none).1 = 0 ∧
    commitMsgsOf (runApp gitOkEnv ollamaOkEnv "" Choice.reject none).2 = [] ∧
    (runPlain gitOkEnv ollamaOkEnv [" N "]).1 = 0 ∧
    commitMsgsOf (runPlain gitOkEnv ollamaOkEnv [" N "]).2 = [] :=
  C7_reject_no_commit gitOkEnv ollamaOkEnv "" "feat: add things" none
    rfl (by decide) rfl (by decide) (by decide)
    gitOkEnv ollamaOkEnv "feat: add things" " N "
    rfl (by decide) rfl (by decide) (by decide) (by decide)

/-- Claim C8: in a run where all staged files were processed but the resulting
summary sequence is empty, both orchestrators exit with code 1 without ever
invoking `generate_commit_message` or commit. -/
theorem C8_zero_summaries_exit_one (g : GitEnv) (o : OllamaEnv) (hint : String)
    (choice : Choice) (editResp : Option String)
    (h1 : g.revParseOk = true) (h2 : get_staged_files g ≠ [])
    (h3 : (is_available o).1 = true)
    (h4 : (processFilesApp g o hint (get_staged_files g)).1 = [])
    (gp : GitEnv) (op : OllamaEnv) (inputs : List String)
    (hp1 : gp.revParseOk = true) (hp2 : get_staged_files gp ≠ [])
    (hp3 : (is_available op).1 = true)
    (hp4 : (processFilesPlain gp op (get_staged_files gp)).1 = []) :
    (runApp g o hint choice editResp).1 = 1 ∧
    genCallsOf (runApp g o hint choice editResp).2 = [] ∧
    commitMsgsOf (runApp g o hint choice editResp).2 = [] ∧
    (runPlain gp op inputs).1 = 1 ∧
    genCallsOf (runPlain gp op inputs).2 = [] ∧
    commitMsgsOf (runPlain gp op inputs).2 = [] := by
  have happ : runApp g o hint choice editResp =
      (1, (is_available o).2 ++ (processFilesApp g o hint (get_staged_files g)).2) := by
    unfold runApp
    rw [if_neg (by simp [h1]), if_neg h2, if_neg (by simp [h3]), if_pos h4]
  have hpl : runPlain gp op inputs =
      (1, (is_available op).2 ++ (processFilesPlain gp op (get_staged_files gp)).2) := by
    unfold runPlain
    rw [if_neg (by simp [hp1]), if_neg hp2, if_neg (by simp [hp3]), if_pos hp4]
  rw [happ, hpl]
  refine ⟨rfl, ?_, ?_, rfl, ?_, ?_⟩
  · rw [genCallsOf_append, is_available_snd, genCallsOf_tagsReq]
    unfold processFilesApp
    rw [(processFiles_events_clean _ g (fun p d => summarize_events_clean o p d hint) _).1]
    rfl
  · rw [commitMsgsOf_append, is_available_snd, commitMsgsOf_tagsReq]
    unfold processFilesApp
    rw [(processFiles_events_clean _ g (fun p d => summarize_events_clean o p d hint) _).2]
    rfl
  · rw [genCallsOf_append, is_available_snd, genCallsOf_tagsReq]
    unfold processFilesPlain
    rw [(processFiles_events_clean _ gp (fun p d => summarize_plain_events_clean op p d) _).1]
    rfl
  · rw [commitMsgsOf_append, is_available_snd, commitMsgsOf_tagsReq]
    unfold processFilesPlain
    rw [(processFiles_events_clean _ gp (fun p d => summarize_plain_events_clean op p d) _).2]
    rfl

theorem C8_witness :
    (runApp gitOkEnv ollamaNoRespEnv "" Choice.accept none).1 = 1 ∧
    genCallsOf (runApp gitOkEnv ollamaNoRespEnv "" Choice.accept none).2 = [] ∧
    commitMsgsOf (runApp gitOkEnv ollamaNoRespEnv "" Choice.accept none).2 = [] ∧
    (runPlain gitOkEnv ollamaNoRespEnv []).1 = 1 ∧
    genCallsOf (runPlain gitOkEnv ollamaNoRespEnv []).2 = [] ∧
    commitMsgsOf (runPlain gitOkEnv ollamaNoRespEnv []).2 = [] :=
  C8_zero_summaries_exit_one gitOkEnv ollamaNoRespEnv "" Choice.accept none
    rfl (by decide) rfl (by decide)
    gitOkEnv ollamaNoRespEnv []
    rfl (by decide) rfl (by decide)

end Gcommit
